import Mathlib

/-!
Verification development for the pymlstate plugin (Go, package `mlstate`
plus the MNIST data-source package `mnist`).

Shallow embedding conventions:
- `data.Value` (sensorbee) is embedded as the inductive `Value`; Go float64
  / float32 values are embedded as exact rationals `ℚ`.
- Stateful Go methods become explicit state-passing functions returning the
  updated state together with the Go return values.
- Calls into the external Python capability (`py.ObjectInstance.Call`) are
  embedded as an oracle function supplied as a parameter; errors are
  `Except String`.
- File bytes are embedded as `List Nat` (each element a byte value);
  `bufio.Reader.ReadByte` past end-of-file yields byte 0 together with an
  error that the Go source discards, so reads are `List.getD` with
  default 0.
- Real time (`time.Now`) and the Python interpreter's reference counts are
  external effects with no influence on any claim and are not modelled.
-/

/-- Embedding of sensorbee `data.Value`. -/
inductive Value where
  | null
  | bool (b : Bool)
  | int (n : Int)
  | float (q : ℚ)
  | str (s : String)
  | array (a : List Value)
  | map (m : List (String × Value))

/-- `data.AsMap`: succeeds exactly on map values. -/
def asMap : Value → Except String (List (String × Value))
  | .map m => .ok m
  | _ => .error "not a map"

/-- `data.Map.Get` with a compiled single-key path: association lookup. -/
def mapGet (m : List (String × Value)) (k : String) : Except String Value :=
  match m.lookup k with
  | some v => .ok v
  | none => .error "key not found"

/-- `data.ToFloat` on the shapes relevant here: numeric and boolean values
convert, other shapes fail.  (String parsing always fails in this model;
no theorem below depends on which strings Go would parse.) -/
def toFloat : Value → Except String ℚ
  | .int n => .ok (n : ℚ)
  | .float q => .ok q
  | .bool b => .ok (if b then 1 else 0)
  | _ => .error "cannot convert to float"

/-- Embedding of `PyMLState` (mlstate.go lines 265-271).  The opaque
module/instance handles `mdl`/`ins` are embedded as numeric identifiers. -/
structure PyMLState where
  mdl : Nat
  ins : Nat
  bucket : List Value
  batchSize : Nat

/-- `NewPyMLState` after a successful module load and instantiation
(mlstate.go lines 289-294): fresh state with an empty bucket.  The load /
instantiate steps themselves talk to the external Python capability and are
outside this model. -/
def NewPyMLState (mdl ins : Nat) (batchSize : Nat) : PyMLState :=
  { mdl := mdl, ins := ins, bucket := [], batchSize := batchSize }

/-- The best-effort diagnostic block of `PyMLState.Write` (mlstate.go lines
314-331): `err` is the pending write result; every branch of the block
returns `err` (the early `return err` statements and the fall-through). -/
def writeDiag (err : Except String Unit) (m : Value) : Except String Unit :=
  match asMap m with
  | .error _ => err
  | .ok ret =>
    match mapGet ret "loss" with
    | .error _ => err
    | .ok l =>
      match toFloat l with
      | .error _ => err
      | .ok _ =>
        match mapGet ret "accuracy" with
        | .error _ => err
        | .ok a =>
          match toFloat a with
          | .error _ => err
          | .ok _ => err

/-- Result of one `Write` call: the updated state, the returned error value,
and the list of fit invocations made (each with its argument bucket). -/
structure WriteOut where
  state : PyMLState
  result : Except String Unit
  fitCalls : List (List Value)

/-- `PyMLState.Write` (mlstate.go lines 305-335): append the tuple's data to
the bucket; once `len(bucket) >= batchSize`, call fit on the whole bucket,
clear the bucket unconditionally, run the best-effort diagnostic block, and
return the fit error (nil on success).  On a fit error the Go value `m` is
the nil `data.Value`, embedded as `Value.null`. -/
def PyMLState.Write (fitFn : List Value → Except String Value) (s : PyMLState)
    (t : Value) : WriteOut :=
  let bucket := s.bucket ++ [t]
  if s.batchSize ≤ bucket.length then
    match fitFn bucket with
    | .ok m =>
      { state := { s with bucket := [] }
        result := writeDiag (.ok ()) m
        fitCalls := [bucket] }
    | .error e =>
      { state := { s with bucket := [] }
        result := writeDiag (.error e) Value.null
        fitCalls := [bucket] }
  else
    { state := { s with bucket := bucket }
      result := .ok ()
      fitCalls := [] }

/-- `PyMLState.Fit` (mlstate.go lines 339-341): delegate the bucket to the
external capability's fit entry point; the Go method reads `s.ins` and
mutates nothing, so the state is returned unchanged. -/
def PyMLState.Fit (oracle : Nat → String → Value → Except String Value)
    (s : PyMLState) (bucket : List Value) : PyMLState × Except String Value :=
  (s, oracle s.ins "fit" (Value.array bucket))

/-- `s.ins.Call("predict", dt)` as performed by `PyMLPredict` (mlstate.go
line 370); reads `s.ins` only, mutates nothing. -/
def PyMLState.Predict (oracle : Nat → String → Value → Except String Value)
    (s : PyMLState) (dt : Value) : PyMLState × Except String Value :=
  (s, oracle s.ins "predict" dt)

/-- `PyMLState.Terminate` (mlstate.go lines 298-302): releases the two
external handles (reference counts live in the Python interpreter, not in
the Go struct) and always returns nil. -/
def PyMLState.Terminate (s : PyMLState) : PyMLState × Except String Unit :=
  (s, .ok ())

/-- A value held in the engine's shared-state registry: either a
`PyMLState` or a state of some other concrete type. -/
inductive SharedState where
  | pyML (s : PyMLState)
  | otherState (tag : String)

/-- `lookupPyMLState` (mlstate.go lines 373-384): registry lookup followed
by the type assertion. -/
def lookupPyMLState (reg : String → Except String SharedState)
    (name : String) : Except String PyMLState :=
  match reg name with
  | .error e => .error e
  | .ok (SharedState.pyML s) => .ok s
  | .ok (SharedState.otherState _) => .error "state isn't a PyMLState"

/-- `PyMLPredict` (mlstate.go lines 364-371): resolve the state by name and
forward the single input value to the capability's predict entry point. -/
def PyMLPredict (reg : String → Except String SharedState)
    (oracle : Nat → String → Value → Except String Value)
    (name : String) (dt : Value) : Except String Value :=
  match lookupPyMLState reg name with
  | .error e => .error e
  | .ok s => (PyMLState.Predict oracle s dt).2

/-- Accumulated outcome of a sequence of `Write` calls. -/
structure SeqOut where
  state : PyMLState
  fitCalls : List (List Value)
  results : List (Except String Unit)

/-- Sequential `Write` calls on one state, collecting all fit invocations in
order. -/
def writeSeq (fitFn : List Value → Except String Value) :
    PyMLState → List Value → SeqOut
  | s, [] => { state := s, fitCalls := [], results := [] }
  | s, t :: ts =>
    let o := PyMLState.Write fitFn s t
    let rest := writeSeq fitFn o.state ts
    { state := rest.state
      fitCalls := o.fitCalls ++ rest.fitCalls
      results := o.result :: rest.results }

/-- The `{label, data}` payload of one tuple emitted by the generator
(part of `core.Tuple`; the two `time.Now` timestamps and the empty trace
carry no information relevant to any claim and are not modelled). -/
structure Tuple where
  label : Int
  image : List ℚ
deriving DecidableEq

/-- The two halt signals `core.ErrSourceRewound` / `core.ErrSourceStopped`,
plus any other non-nil error a sink write may return. -/
inductive WriteErr where
  | rewound
  | stopped
  | otherErr
deriving DecidableEq

/-- A sink write returning a halt signal. -/
def isHaltSignal (e : Option WriteErr) : Prop :=
  e = some WriteErr.rewound ∨ e = some WriteErr.stopped

instance (e : Option WriteErr) : Decidable (isHaltSignal e) := by
  unfold isHaltSignal; infer_instance

/-- Embedding of `mnistDataSource` (mnist.go lines 18-25). -/
structure MnistDataSource where
  data : List (List ℚ)
  target : List Int
  dataSize : Nat
  imageElemSize : Nat
  batchSize : Nat
  randomFlag : Bool

/-- Swap of two positions of a list, as Go's
`perm[i], perm[j] = perm[j], perm[i]`. -/
def swapIdx (l : List Nat) (i j : Nat) : List Nat :=
  (l.set i (l.getD j 0)).set j (l.getD i 0)

/-- `ramdomPermutaion` (mnist.go lines 245-250): for each index `i` from 0
upward, draw `j := rand.Intn(i+1)` and swap positions `i` and `j`.  The
random generator is abstracted as a draw sequence `g`; the value consumed
at step `i` is `g i % (i+1)`, which like `rand.Intn(i+1)` always lies in
`[0, i]`. -/
def ramdomPermutaion (g : Nat → Nat) (perm : List Nat) : List Nat :=
  (List.range perm.length).foldl (fun p i => swapIdx p i (g i % (i + 1))) perm

/-- The tuple payload built by the body of the emission loop of
`GenerateStream` (mnist.go lines 201-216) for loop index `i`. -/
def recordAt (s : MnistDataSource) (i : Nat) : Tuple :=
  { label := s.target.getD i 0, image := s.data.getD i [] }

/-- The tuples the emission loop builds, for `i = 0, …, dataSize-1`. -/
def records (s : MnistDataSource) : List Tuple :=
  (List.range s.dataSize).map (recordAt s)

/-- The emission loop of `GenerateStream` (mnist.go lines 200-221): write
each tuple to the sink; if the write returns `ErrSourceRewound` or
`ErrSourceStopped`, return that error immediately; any other write error is
ignored; after the loop return nil.  Returns the list of tuples that were
passed to the sink together with the loop's result. -/
def emitLoop (sink : Nat → Tuple → Option WriteErr) :
    Nat → List Tuple → List Tuple × Option WriteErr
  | _, [] => ([], none)
  | i, r :: rs =>
    let e := sink i r
    if e = some WriteErr.rewound ∨ e = some WriteErr.stopped then
      ([r], e)
    else
      let rest := emitLoop sink (i + 1) rs
      (r :: rest.1, rest.2)

/-- `mnistDataSource.GenerateStream` (mnist.go lines 191-225): build the
identity index list, shuffle it when `randomFlag` is set — and then run the
emission loop over `s.data[i]` / `s.target[i]` for `i = 0, …, dataSize-1`:
the source never reads `perm` in the loop, exactly as on lines 200-221. -/
def GenerateStream (g : Nat → Nat) (s : MnistDataSource)
    (sink : Nat → Tuple → Option WriteErr) : List Tuple × Option WriteErr :=
  let perm := List.range s.dataSize
  let _shuffled := if s.randomFlag then ramdomPermutaion g perm else perm
  emitLoop sink 0 (records s)

/-- Reading one image row of `elemSize` bytes sequentially from position
`ipos` (inner loop of `getMNISTRawData`, mnist.go lines 167-170): each byte
is divided by 255; a read past end-of-file yields byte 0 (the discarded
`ReadByte` error). -/
def readRow (img : List Nat) (ipos : Nat) : Nat → List ℚ
  | 0 => []
  | n + 1 => ((img.getD ipos 0 : ℚ) / 255) :: readRow img (ipos + 1) n

/-- The main loop of `getMNISTRawData` (mnist.go lines 164-171), reading
`n` records: one label byte from position `lpos`, then `elemSize` image
bytes from position `ipos`.  Positions advance sequentially exactly as the
two buffered readers do. -/
def readAll (img lbl : List Nat) (elemSize : Nat) :
    Nat → Nat → Nat → List Int × List (List ℚ)
  | _, _, 0 => ([], [])
  | ipos, lpos, n + 1 =>
    let t : Int := (lbl.getD lpos 0 : Int)
    let row := readRow img ipos elemSize
    let rest := readAll img lbl elemSize (ipos + elemSize) (lpos + 1) n
    (t :: rest.1, row :: rest.2)

/-- `getMNISTRawData` after both files have been opened (mnist.go lines
152-173): skip the 16-byte image header and the 8-byte label header, then
read `dataSize` records.  All `ReadByte` errors are discarded by the
source, so this phase never fails. -/
def getMNISTRawData (img lbl : List Nat) (dataSize elemSize : Nat) :
    List Int × List (List ℚ) :=
  readAll img lbl elemSize 16 8 dataSize

/-- `getMNISTRawData` including its two open steps (mnist.go lines
138-150): `none` stands for a file that fails to open; the images file is
opened first.  Once both opens succeed the function returns `nil` error
unconditionally (line 173). -/
def getMNISTRawDataFromFiles (imgFile lblFile : Option (List Nat))
    (dataSize elemSize : Nat) :
    Except String (List Int × List (List ℚ)) :=
  match imgFile with
  | none => .error "cannot open images file"
  | some img =>
    match lblFile with
    | none => .error "cannot open labels file"
    | some lbl => .ok (getMNISTRawData img lbl dataSize elemSize)

/-! ### Helper lemmas about `Write` -/

/-- Every branch of the diagnostic block returns the pending `err`
unchanged: extraction failures never alter the write result. -/
theorem writeDiag_eq (err : Except String Unit) (m : Value) :
    writeDiag err m = err := by
  unfold writeDiag
  split
  · rfl
  · split
    · rfl
    · split
      · rfl
      · split
        · rfl
        · split
          · rfl
          · rfl

/-- A write that stays strictly below the threshold only appends. -/
theorem Write_below (f : List Value → Except String Value) (s : PyMLState)
    (t : Value) (h : s.bucket.length + 1 < s.batchSize) :
    PyMLState.Write f s t =
      { state := { s with bucket := s.bucket ++ [t] }
        result := .ok ()
        fitCalls := [] } := by
  have hc : ¬ s.batchSize ≤ (s.bucket ++ [t]).length := by
    rw [List.length_append, List.length_singleton]
    omega
  simp only [PyMLState.Write]
  rw [if_neg hc]

/-- A write that reaches the threshold makes exactly one fit call on the
appended bucket and clears the bucket. -/
theorem Write_trigger_state (f : List Value → Except String Value)
    (s : PyMLState) (t : Value) (h : s.batchSize ≤ s.bucket.length + 1) :
    (PyMLState.Write f s t).state = { s with bucket := [] } ∧
    (PyMLState.Write f s t).fitCalls = [s.bucket ++ [t]] := by
  have hc : s.batchSize ≤ (s.bucket ++ [t]).length := by
    rw [List.length_append, List.length_singleton]
    omega
  simp only [PyMLState.Write]
  rw [if_pos hc]
  cases f (s.bucket ++ [t]) <;> exact ⟨rfl, rfl⟩

/-- When the triggered fit succeeds, the write result is nil whatever shape
the fit returned. -/
theorem Write_trigger_ok (f : List Value → Except String Value)
    (s : PyMLState) (t : Value) (v : Value)
    (h : s.batchSize ≤ s.bucket.length + 1)
    (hf : f (s.bucket ++ [t]) = .ok v) :
    (PyMLState.Write f s t).result = .ok () := by
  have hc : s.batchSize ≤ (s.bucket ++ [t]).length := by
    rw [List.length_append, List.length_singleton]
    omega
  simp only [PyMLState.Write]
  rw [if_pos hc, hf]
  simp [writeDiag_eq]

/-- When the triggered fit fails, the write result is that same error. -/
theorem Write_trigger_err (f : List Value → Except String Value)
    (s : PyMLState) (t : Value) (e : String)
    (h : s.batchSize ≤ s.bucket.length + 1)
    (hf : f (s.bucket ++ [t]) = .error e) :
    (PyMLState.Write f s t).result = .error e := by
  have hc : s.batchSize ≤ (s.bucket ++ [t]).length := by
    rw [List.length_append, List.length_singleton]
    omega
  simp only [PyMLState.Write]
  rw [if_pos hc, hf]
  simp [writeDiag_eq]

/-- One-step unfolding of `writeSeq` on a nonempty record list. -/
theorem writeSeq_cons_fitCalls (f : List Value → Except String Value)
    (s : PyMLState) (t : Value) (ts : List Value) :
    (writeSeq f s (t :: ts)).fitCalls =
      (PyMLState.Write f s t).fitCalls ++
        (writeSeq f (PyMLState.Write f s t).state ts).fitCalls := rfl

/-- One-step unfolding of `writeSeq`: the final state. -/
theorem writeSeq_cons_state (f : List Value → Except String Value)
    (s : PyMLState) (t : Value) (ts : List Value) :
    (writeSeq f s (t :: ts)).state =
      (writeSeq f (PyMLState.Write f s t).state ts).state := rfl

/-- A run of writes that keeps the bucket strictly below the threshold
makes no fit call and accumulates the records in order. -/
theorem writeSeq_no_fit (f : List Value → Except String Value)
    (ts : List Value) :
    ∀ s : PyMLState, s.bucket.length + ts.length < s.batchSize →
      (writeSeq f s ts).fitCalls = [] ∧
      (writeSeq f s ts).state.bucket = s.bucket ++ ts ∧
      (writeSeq f s ts).state.batchSize = s.batchSize := by
  induction ts with
  | nil =>
    intro s h
    exact ⟨rfl, (List.append_nil _).symm, rfl⟩
  | cons t ts ih =>
    intro s h
    simp only [List.length_cons] at h
    have hlt : s.bucket.length + 1 < s.batchSize := by omega
    have hw := Write_below f s t hlt
    rw [writeSeq_cons_fitCalls, writeSeq_cons_state, hw]
    dsimp only
    have ih' := ih { s with bucket := s.bucket ++ [t] } (by
      dsimp only
      rw [List.length_append, List.length_singleton]
      omega)
    dsimp only at ih'
    refine ⟨ih'.1, ?_, ih'.2.2⟩
    rw [ih'.2.1]
    simp

/-- A run of writes that exactly fills the bucket to the threshold makes
one fit call, on the full bucket, and leaves the bucket empty. -/
theorem writeSeq_fill (f : List Value → Except String Value)
    (ts : List Value) :
    ∀ s : PyMLState, ts ≠ [] → s.bucket.length + ts.length = s.batchSize →
      (writeSeq f s ts).fitCalls = [s.bucket ++ ts] ∧
      (writeSeq f s ts).state.bucket = [] := by
  induction ts with
  | nil => intro s hne _; exact absurd rfl hne
  | cons t ts ih =>
    intro s _ h
    simp only [List.length_cons] at h
    cases ts with
    | nil =>
      simp only [List.length_nil] at h
      have htr : s.batchSize ≤ s.bucket.length + 1 := by omega
      have hw := Write_trigger_state f s t htr
      rw [writeSeq_cons_fitCalls, writeSeq_cons_state, hw.1, hw.2]
      exact ⟨List.append_nil _, rfl⟩
    | cons t' ts' =>
      have hlt : s.bucket.length + 1 < s.batchSize := by
        simp only [List.length_cons] at h
        omega
      have hw := Write_below f s t hlt
      rw [writeSeq_cons_fitCalls, writeSeq_cons_state, hw]
      dsimp only
      have ih' := ih { s with bucket := s.bucket ++ [t] }
        (List.cons_ne_nil _ _) (by
          dsimp only
          rw [List.length_append, List.length_singleton]
          simp only [List.length_cons] at h ⊢
          omega)
      dsimp only at ih'
      refine ⟨?_, ih'.2⟩
      rw [ih'.1]
      simp

/-! ### Claim theorems: Model State -/

/-- C1: for every batch threshold `k ≥ 1` and every sequence of writes on a
fresh state, writing fewer than `k` records triggers no fit call, and
writing the `k`-th record triggers exactly one fit call whose argument is
exactly those `k` records in write order, with the bucket empty immediately
after that write returns. -/
theorem claim_write_batching (k : Nat) (hk : 1 ≤ k)
    (f : List Value → Except String Value) (mdl ins : Nat) (ts : List Value) :
    (ts.length < k → (writeSeq f (NewPyMLState mdl ins k) ts).fitCalls = []) ∧
    (ts.length = k →
      (writeSeq f (NewPyMLState mdl ins k) ts).fitCalls = [ts] ∧
      (writeSeq f (NewPyMLState mdl ins k) ts).state.bucket = []) := by
  constructor
  · intro hlt
    exact (writeSeq_no_fit f ts (NewPyMLState mdl ins k)
      (by simp only [NewPyMLState, List.length_nil]; omega)).1
  · intro heq
    have hne : ts ≠ [] := by
      intro hcon
      rw [hcon] at heq
      simp only [List.length_nil] at heq
      omega
    have hfill := writeSeq_fill f ts (NewPyMLState mdl ins k) hne
      (by simp only [NewPyMLState, List.length_nil]; omega)
    simpa [NewPyMLState] using hfill

/-- C1 witness: threshold 2, two writes, one fit call on both records. -/
theorem claim_write_batching_witness :
    (writeSeq (fun _ => Except.ok Value.null) (NewPyMLState 0 0 2)
        [Value.int 1, Value.int 2]).fitCalls = [[Value.int 1, Value.int 2]] ∧
    (writeSeq (fun _ => Except.ok Value.null) (NewPyMLState 0 0 2)
        [Value.int 1, Value.int 2]).state.bucket = [] :=
  (claim_write_batching 2 (by decide) (fun _ => Except.ok Value.null) 0 0
    [Value.int 1, Value.int 2]).2 rfl

/-- C2: when a write reaches the batch threshold and the triggered fit call
fails, the write returns that same fit error and the bucket is empty
afterward: the accumulated records are dropped, not retained. -/
theorem claim_write_fit_failure (f : List Value → Except String Value)
    (s : PyMLState) (t : Value) (e : String)
    (h : s.batchSize ≤ s.bucket.length + 1)
    (hf : f (s.bucket ++ [t]) = .error e) :
    (PyMLState.Write f s t).result = .error e ∧
    (PyMLState.Write f s t).state.bucket = [] := by
  refine ⟨Write_trigger_err f s t e h hf, ?_⟩
  rw [(Write_trigger_state f s t h).1]

/-- C2 witness: threshold 1, a failing fit: error returned, bucket empty. -/
theorem claim_write_fit_failure_witness :
    (PyMLState.Write (fun _ => Except.error "fit failed") (NewPyMLState 0 0 1)
        (Value.int 5)).result = Except.error "fit failed" ∧
    (PyMLState.Write (fun _ => Except.error "fit failed") (NewPyMLState 0 0 1)
        (Value.int 5)).state.bucket = [] :=
  claim_write_fit_failure (fun _ => Except.error "fit failed")
    (NewPyMLState 0 0 1) (Value.int 5) "fit failed" (by decide) rfl

/-- C6: with a positive batch threshold, `len(bucket) < batchSize` holds on
the fresh state and is re-established by the time any write returns; fit,
predict and terminate leave the bucket untouched. -/
theorem claim_buffer_invariant (k mdl ins : Nat) (hk : 1 ≤ k)
    (f : List Value → Except String Value)
    (oracle : Nat → String → Value → Except String Value)
    (s : PyMLState) (t dt : Value) (b : List Value)
    (hs : s.bucket.length < s.batchSize) :
    (NewPyMLState mdl ins k).bucket.length < k ∧
    (PyMLState.Write f s t).state.bucket.length <
      (PyMLState.Write f s t).state.batchSize ∧
    (PyMLState.Fit oracle s b).1.bucket = s.bucket ∧
    (PyMLState.Predict oracle s dt).1.bucket = s.bucket ∧
    (PyMLState.Terminate s).1.bucket = s.bucket := by
  refine ⟨by simp only [NewPyMLState, List.length_nil]; omega, ?_, rfl, rfl, rfl⟩
  by_cases hc : s.batchSize ≤ s.bucket.length + 1
  · rw [(Write_trigger_state f s t hc).1]
    dsimp only
    simp only [List.length_nil]
    omega
  · push_neg at hc
    rw [Write_below f s t hc]
    dsimp only
    rw [List.length_append, List.length_singleton]
    omega

/-- C6 witness: threshold 1, a triggering write from an invariant state. -/
theorem claim_buffer_invariant_witness :
    (NewPyMLState 0 0 1).bucket.length < 1 ∧
    (PyMLState.Write (fun _ => Except.ok Value.null) (NewPyMLState 0 0 1)
        Value.null).state.bucket.length <
      (PyMLState.Write (fun _ => Except.ok Value.null) (NewPyMLState 0 0 1)
        Value.null).state.batchSize ∧
    (PyMLState.Fit (fun _ _ _ => Except.ok Value.null) (NewPyMLState 0 0 1)
        []).1.bucket = (NewPyMLState 0 0 1).bucket ∧
    (PyMLState.Predict (fun _ _ _ => Except.ok Value.null) (NewPyMLState 0 0 1)
        Value.null).1.bucket = (NewPyMLState 0 0 1).bucket ∧
    (PyMLState.Terminate (NewPyMLState 0 0 1)).1.bucket =
      (NewPyMLState 0 0 1).bucket :=
  claim_buffer_invariant 1 0 0 (by decide) (fun _ => Except.ok Value.null)
    (fun _ _ _ => Except.ok Value.null) (NewPyMLState 0 0 1) Value.null
    Value.null [] (by decide)

/-- C7: a write whose triggered fit call succeeds returns nil regardless of
the shape of the fit result value (diagnostic extraction is best-effort). -/
theorem claim_write_best_effort (f : List Value → Except String Value)
    (s : PyMLState) (t : Value) (v : Value)
    (h : s.batchSize ≤ s.bucket.length + 1)
    (hf : f (s.bucket ++ [t]) = .ok v) :
    (PyMLState.Write f s t).result = .ok () :=
  Write_trigger_ok f s t v h hf

/-- C7 witness: the fit returns a bare integer (not a map); the write still
returns nil. -/
theorem claim_write_best_effort_witness :
    (PyMLState.Write (fun _ => Except.ok (Value.int 3)) (NewPyMLState 0 0 1)
        Value.null).result = Except.ok () :=
  claim_write_best_effort (fun _ => Except.ok (Value.int 3))
    (NewPyMLState 0 0 1) Value.null (Value.int 3) (by decide) rfl

/-- C8: predict leaves the whole state (bucket, threshold, handles)
unchanged and forwards the single input value to the capability's predict
entry point, also when invoked by name through the facade. -/
theorem claim_predict_frame
    (oracle : Nat → String → Value → Except String Value)
    (s : PyMLState) (dt : Value) (reg : String → Except String SharedState)
    (name : String) (hreg : reg name = .ok (SharedState.pyML s)) :
    (PyMLState.Predict oracle s dt).1 = s ∧
    (PyMLState.Predict oracle s dt).2 = oracle s.ins "predict" dt ∧
    PyMLPredict reg oracle name dt = oracle s.ins "predict" dt := by
  refine ⟨rfl, rfl, ?_⟩
  unfold PyMLPredict lookupPyMLState
  rw [hreg]
  rfl

/-- C8 witness: a concrete registry holding one state under "ml". -/
theorem claim_predict_frame_witness :
    (PyMLState.Predict (fun _ _ _ => Except.ok Value.null) (NewPyMLState 3 4 2)
        (Value.int 7)).1 = NewPyMLState 3 4 2 ∧
    (PyMLState.Predict (fun _ _ _ => Except.ok Value.null) (NewPyMLState 3 4 2)
        (Value.int 7)).2 =
      (fun _ _ _ => Except.ok Value.null) (NewPyMLState 3 4 2).ins "predict"
        (Value.int 7) ∧
    PyMLPredict (fun _ => Except.ok (SharedState.pyML (NewPyMLState 3 4 2)))
        (fun _ _ _ => Except.ok Value.null) "ml" (Value.int 7) =
      (fun _ _ _ => Except.ok Value.null) (NewPyMLState 3 4 2).ins "predict"
        (Value.int 7) :=
  claim_predict_frame (fun _ _ _ => Except.ok Value.null) (NewPyMLState 3 4 2)
    (Value.int 7) (fun _ => Except.ok (SharedState.pyML (NewPyMLState 3 4 2)))
    "ml" rfl

/-! ### Helper lemmas about the generator -/

/-- If no sink write up to the end of the list returns a halt signal, the
emission loop writes every tuple and returns nil. -/
theorem emitLoop_all (sink : Nat → Tuple → Option WriteErr) (rs : List Tuple) :
    ∀ i : Nat,
      (∀ k, k < rs.length → ¬ isHaltSignal (sink (i + k) (rs.getD k ⟨0, []⟩))) →
      emitLoop sink i rs = (rs, none) := by
  induction rs with
  | nil => intro i _; rfl
  | cons r rs ih =>
    intro i h
    have h0 : ¬ isHaltSignal (sink i r) := by
      have h' := h 0 (by simp)
      simpa using h'
    have htl : ∀ k, k < rs.length →
        ¬ isHaltSignal (sink (i + 1 + k) (rs.getD k ⟨0, []⟩)) := by
      intro k hk
      have h' := h (k + 1) (by simp only [List.length_cons]; omega)
      have harith : i + (k + 1) = i + 1 + k := by omega
      rw [harith] at h'
      simpa [List.getD_cons_succ] using h'
    have h0' : ¬(sink i r = some WriteErr.rewound ∨
        sink i r = some WriteErr.stopped) := h0
    simp only [emitLoop]
    rw [if_neg h0', ih (i + 1) htl]

/-- If the sink's write for the tuple at position `n` is the first one to
return a halt signal, the loop stops there: exactly the first `n + 1`
tuples have been written and that signal is the loop's result. -/
theorem emitLoop_halt (sink : Nat → Tuple → Option WriteErr) (rs : List Tuple) :
    ∀ i n : Nat, n < rs.length →
      (∀ m, m < n → ¬ isHaltSignal (sink (i + m) (rs.getD m ⟨0, []⟩))) →
      isHaltSignal (sink (i + n) (rs.getD n ⟨0, []⟩)) →
      emitLoop sink i rs =
        (rs.take (n + 1), sink (i + n) (rs.getD n ⟨0, []⟩)) := by
  induction rs with
  | nil => intro i n hn; simp at hn
  | cons r rs ih =>
    intro i n hn hbef hhalt
    cases n with
    | zero =>
      have h0 : isHaltSignal (sink i r) := by simpa using hhalt
      have h0' : sink i r = some WriteErr.rewound ∨
          sink i r = some WriteErr.stopped := h0
      simp only [emitLoop]
      rw [if_pos h0']
      simp
    | succ n =>
      have h0 : ¬ isHaltSignal (sink i r) := by
        have h' := hbef 0 (Nat.succ_pos n)
        simpa using h'
      have hb : ∀ m, m < n →
          ¬ isHaltSignal (sink (i + 1 + m) (rs.getD m ⟨0, []⟩)) := by
        intro m hm
        have h' := hbef (m + 1) (by omega)
        have harith : i + (m + 1) = i + 1 + m := by omega
        rw [harith] at h'
        simpa [List.getD_cons_succ] using h'
      have hh : isHaltSignal (sink (i + 1 + n) (rs.getD n ⟨0, []⟩)) := by
        have harith : i + (n + 1) = i + 1 + n := by omega
        rw [harith] at hhalt
        simpa [List.getD_cons_succ] using hhalt
      have hlen : n < rs.length := by
        simp only [List.length_cons] at hn
        omega
      have h0' : ¬(sink i r = some WriteErr.rewound ∨
          sink i r = some WriteErr.stopped) := h0
      simp only [emitLoop]
      rw [if_neg h0', ih (i + 1) n hlen hb hh]
      have harith : i + (n + 1) = i + 1 + n := by omega
      rw [harith]
      simp [List.getD_cons_succ]

theorem records_length (s : MnistDataSource) :
    (records s).length = s.dataSize := by
  simp [records]

theorem records_getD (s : MnistDataSource) (k : Nat) (hk : k < s.dataSize) :
    (records s).getD k ⟨0, []⟩ = recordAt s k := by
  have hk' : k < (records s).length := by rwa [records_length]
  rw [List.getD_eq_getElem _ _ hk']
  simp [records]

/-- `GenerateStream` is the emission loop over the identity-order records
(the computed permutation is dead). -/
theorem GenerateStream_eq (g : Nat → Nat) (s : MnistDataSource)
    (sink : Nat → Tuple → Option WriteErr) :
    GenerateStream g s sink = emitLoop sink 0 (records s) := rfl

/-! ### Claim theorems: generator -/

/-- C5: if the sink's write returns the rewound or stopped signal for the
record at 0-based position `n` (the `(n+1)`-th record), having returned no
halt signal before, emission halts with exactly the first `n + 1` records
written and the stream call returns that signal; other per-record sink
errors do not halt emission, and with no halt signal at all the call writes
every record and returns nil. -/
theorem claim_generate_stream_halting (g : Nat → Nat) (s : MnistDataSource)
    (sink : Nat → Tuple → Option WriteErr) :
    ((∀ k, k < s.dataSize → ¬ isHaltSignal (sink k (recordAt s k))) →
      GenerateStream g s sink = (records s, none)) ∧
    (∀ n, n < s.dataSize →
      (∀ m, m < n → ¬ isHaltSignal (sink m (recordAt s m))) →
      isHaltSignal (sink n (recordAt s n)) →
      GenerateStream g s sink =
        ((records s).take (n + 1), sink n (recordAt s n))) := by
  constructor
  · intro h
    rw [GenerateStream_eq]
    apply emitLoop_all
    intro k hk
    have hk' : k < s.dataSize := by rwa [records_length] at hk
    rw [Nat.zero_add, records_getD s k hk']
    exact h k hk'
  · intro n hn hbef hhalt
    rw [GenerateStream_eq]
    have hb : ∀ m, m < n →
        ¬ isHaltSignal (sink (0 + m) ((records s).getD m ⟨0, []⟩)) := by
      intro m hm
      rw [Nat.zero_add, records_getD s m (by omega)]
      exact hbef m hm
    have hh : isHaltSignal (sink (0 + n) ((records s).getD n ⟨0, []⟩)) := by
      rw [Nat.zero_add, records_getD s n hn]
      exact hhalt
    rw [emitLoop_halt sink (records s) 0 n (by rwa [records_length]) hb hh]
    rw [Nat.zero_add, records_getD s n hn]

/-- A tiny concrete data source used by witnesses below: two records,
one pixel each. -/
def tinySource : MnistDataSource :=
  { data := [[0], [1]], target := [0, 1], dataSize := 2,
    imageElemSize := 1, batchSize := 1, randomFlag := false }

/-- C5 witness: two records; the sink stops on the second: both records
written, the stop signal returned. -/
theorem claim_generate_stream_halting_witness :
    GenerateStream (fun _ => 0) tinySource
        (fun k _ => if k = 1 then some WriteErr.stopped else none) =
      ((records tinySource).take 2, some WriteErr.stopped) := by
  have h := (claim_generate_stream_halting (fun _ => 0) tinySource
    (fun k _ => if k = 1 then some WriteErr.stopped else none)).2 1
    (by decide)
    (by
      intro m hm
      have hm0 : m = 0 := by omega
      subst hm0
      intro hcon
      rcases hcon with hcon | hcon <;> simp at hcon)
    (Or.inr rfl)
  simpa using h

/-- C3 (code bug): `ramdomPermutaion` does compute the Fisher-Yates-style
shuffle the spec describes, but `GenerateStream` never uses it: with
`dataSize = 2`, `randomFlag = true` and a draw sequence giving the
permutation `[1, 0]`, the records are still written in identity order
`0, 1`, not in permutation order `1, 0`. -/
theorem claim_generator_permutation_dead :
    ramdomPermutaion (fun _ => 0) (List.range 2) = [1, 0] ∧
    (GenerateStream (fun _ => 0) { tinySource with randomFlag := true }
        (fun _ _ => none)).1 =
      [{ label := 0, image := [0] }, { label := 1, image := [1] }] ∧
    ([{ label := 0, image := [0] }, { label := 1, image := [1] }] :
        List Tuple) ≠
      [{ label := 1, image := [1] }, { label := 0, image := [0] }] := by
  refine ⟨by decide, by decide, by decide⟩

/-! ### Helper lemmas about the dataset reader -/

theorem readRow_length (img : List Nat) :
    ∀ (n ipos : Nat), (readRow img ipos n).length = n := by
  intro n
  induction n with
  | zero => intro ipos; rfl
  | succ n ih =>
    intro ipos
    simp only [readRow, List.length_cons, ih]

theorem readRow_getD (img : List Nat) :
    ∀ (n ipos j : Nat), j < n →
      (readRow img ipos n).getD j 0 = (img.getD (ipos + j) 0 : ℚ) / 255 := by
  intro n
  induction n with
  | zero => intro ipos j hj; omega
  | succ n ih =>
    intro ipos j hj
    cases j with
    | zero => simp [readRow]
    | succ j =>
      simp only [readRow, List.getD_cons_succ]
      rw [ih (ipos + 1) j (by omega)]
      have harith : ipos + 1 + j = ipos + (j + 1) := by omega
      rw [harith]

theorem readAll_fst_length (img lbl : List Nat) (E : Nat) :
    ∀ (n ipos lpos : Nat), (readAll img lbl E ipos lpos n).1.length = n := by
  intro n
  induction n with
  | zero => intro ipos lpos; rfl
  | succ n ih =>
    intro ipos lpos
    simp only [readAll, List.length_cons, ih]

theorem readAll_snd_length (img lbl : List Nat) (E : Nat) :
    ∀ (n ipos lpos : Nat), (readAll img lbl E ipos lpos n).2.length = n := by
  intro n
  induction n with
  | zero => intro ipos lpos; rfl
  | succ n ih =>
    intro ipos lpos
    simp only [readAll, List.length_cons, ih]

theorem readAll_fst_getD (img lbl : List Nat) (E : Nat) :
    ∀ (n ipos lpos i : Nat), i < n →
      (readAll img lbl E ipos lpos n).1.getD i 0 =
        (lbl.getD (lpos + i) 0 : Int) := by
  intro n
  induction n with
  | zero => intro ipos lpos i hi; omega
  | succ n ih =>
    intro ipos lpos i hi
    cases i with
    | zero => simp [readAll]
    | succ i =>
      simp only [readAll, List.getD_cons_succ]
      rw [ih (ipos + E) (lpos + 1) i (by omega)]
      have harith : lpos + 1 + i = lpos + (i + 1) := by omega
      rw [harith]

theorem readAll_snd_getD (img lbl : List Nat) (E : Nat) :
    ∀ (n ipos lpos i : Nat), i < n →
      (readAll img lbl E ipos lpos n).2.getD i [] =
        readRow img (ipos + i * E) E := by
  intro n
  induction n with
  | zero => intro ipos lpos i hi; omega
  | succ n ih =>
    intro ipos lpos i hi
    cases i with
    | zero => simp [readAll]
    | succ i =>
      simp only [readAll, List.getD_cons_succ]
      rw [ih (ipos + E) (lpos + 1) i (by omega)]
      have harith : ipos + E + i * E = ipos + (i + 1) * E := by ring
      rw [harith]

/-! ### Claim theorems: dataset reader -/

/-- C4: with an image file of a 16-byte header plus at least `N*E` bytes
and a label file of an 8-byte header plus at least `N` bytes, the reader
returns exactly `N` labels, each equal to the corresponding label byte
(hence in `[0, 255]`), and exactly `N` image vectors of length `E` whose
`j`-th component equals the corresponding image byte divided by 255, a
value in `[0, 1]`. -/
theorem claim_reader_correct (img lbl : List Nat) (N E i j : Nat)
    (himg : 16 + N * E ≤ img.length) (hlbl : 8 + N ≤ lbl.length)
    (himgB : ∀ b ∈ img, b ≤ 255) (hlblB : ∀ b ∈ lbl, b ≤ 255)
    (hi : i < N) (hj : j < E) :
    (getMNISTRawData img lbl N E).1.length = N ∧
    (getMNISTRawData img lbl N E).2.length = N ∧
    (getMNISTRawData img lbl N E).1.getD i 0 =
      (lbl.getD (8 + i) 0 : Int) ∧
    0 ≤ (getMNISTRawData img lbl N E).1.getD i 0 ∧
    (getMNISTRawData img lbl N E).1.getD i 0 ≤ 255 ∧
    ((getMNISTRawData img lbl N E).2.getD i []).length = E ∧
    ((getMNISTRawData img lbl N E).2.getD i []).getD j 0 =
      (img.getD (16 + i * E + j) 0 : ℚ) / 255 ∧
    0 ≤ ((getMNISTRawData img lbl N E).2.getD i []).getD j 0 ∧
    ((getMNISTRawData img lbl N E).2.getD i []).getD j 0 ≤ 1 := by
  have hlb : lbl.getD (8 + i) 0 ≤ 255 := by
    have hpos : 8 + i < lbl.length := by omega
    rw [List.getD_eq_getElem _ _ hpos]
    exact hlblB _ (List.getElem_mem _)
  have hib : img.getD (16 + i * E + j) 0 ≤ 255 := by
    have hpos : 16 + i * E + j < img.length := by
      have h1 : i * E + j < (i + 1) * E := by
        have hm : (i + 1) * E = i * E + E := Nat.succ_mul i E
        omega
      have h2 : (i + 1) * E ≤ N * E := Nat.mul_le_mul_right E (by omega)
      omega
    rw [List.getD_eq_getElem _ _ hpos]
    exact himgB _ (List.getElem_mem _)
  simp only [getMNISTRawData]
  refine ⟨readAll_fst_length img lbl E N 16 8, readAll_snd_length img lbl E N 16 8,
    readAll_fst_getD img lbl E N 16 8 i hi, ?_, ?_, ?_, ?_, ?_, ?_⟩
  · rw [readAll_fst_getD img lbl E N 16 8 i hi]
    omega
  · rw [readAll_fst_getD img lbl E N 16 8 i hi]
    omega
  · rw [readAll_snd_getD img lbl E N 16 8 i hi]
    exact readRow_length img E (16 + i * E)
  · rw [readAll_snd_getD img lbl E N 16 8 i hi]
    exact readRow_getD img E (16 + i * E) j hj
  · rw [readAll_snd_getD img lbl E N 16 8 i hi,
      readRow_getD img E (16 + i * E) j hj]
    positivity
  · rw [readAll_snd_getD img lbl E N 16 8 i hi,
      readRow_getD img E (16 + i * E) j hj]
    rw [div_le_one (by norm_num : (0 : ℚ) < 255)]
    exact_mod_cast hib

/-- Concrete image file for the C4 witness: 16-byte header, one pixel 7. -/
def witImg : List Nat := List.replicate 16 0 ++ [7]

/-- Concrete label file for the C4 witness: 8-byte header, one label 3. -/
def witLbl : List Nat := List.replicate 8 0 ++ [3]

/-- C4 witness: one record, one pixel per image. -/
theorem claim_reader_correct_witness :
    (getMNISTRawData witImg witLbl 1 1).1.length = 1 ∧
    (getMNISTRawData witImg witLbl 1 1).2.length = 1 ∧
    (getMNISTRawData witImg witLbl 1 1).1.getD 0 0 =
      (witLbl.getD 8 0 : Int) ∧
    0 ≤ (getMNISTRawData witImg witLbl 1 1).1.getD 0 0 ∧
    (getMNISTRawData witImg witLbl 1 1).1.getD 0 0 ≤ 255 ∧
    ((getMNISTRawData witImg witLbl 1 1).2.getD 0 []).length = 1 ∧
    ((getMNISTRawData witImg witLbl 1 1).2.getD 0 []).getD 0 0 =
      (witImg.getD 16 0 : ℚ) / 255 ∧
    0 ≤ ((getMNISTRawData witImg witLbl 1 1).2.getD 0 []).getD 0 0 ∧
    ((getMNISTRawData witImg witLbl 1 1).2.getD 0 []).getD 0 0 ≤ 1 :=
  claim_reader_correct witImg witLbl 1 1 0 0 (by decide) (by decide)
    (by decide) (by decide) (by decide) (by decide)

/-- C10: when both files open, the reader returns success whatever the file
lengths, and every label or pixel whose read position lies beyond the end
of its file comes back as the zero byte: label 0, pixel value 0. -/
theorem claim_reader_zero_fill (img lbl : List Nat) (N E i j : Nat)
    (hi : i < N) (hj : j < E) :
    getMNISTRawDataFromFiles (some img) (some lbl) N E =
      .ok (getMNISTRawData img lbl N E) ∧
    (lbl.length ≤ 8 + i →
      (getMNISTRawData img lbl N E).1.getD i 0 = 0) ∧
    (img.length ≤ 16 + i * E + j →
      ((getMNISTRawData img lbl N E).2.getD i []).getD j 0 = 0) := by
  refine ⟨rfl, ?_, ?_⟩
  · intro hshort
    show (readAll img lbl E 16 8 N).1.getD i 0 = 0
    rw [readAll_fst_getD img lbl E N 16 8 i hi,
      List.getD_eq_default _ _ (by omega)]
    simp
  · intro hshort
    show ((readAll img lbl E 16 8 N).2.getD i []).getD j 0 = 0
    rw [readAll_snd_getD img lbl E N 16 8 i hi,
      readRow_getD img E (16 + i * E) j hj,
      List.getD_eq_default _ _ (by omega)]
    norm_num

/-- C10 witness: both files empty (shorter than even their headers); the
reader still succeeds and reads label 0 and pixel 0. -/
theorem claim_reader_zero_fill_witness :
    getMNISTRawDataFromFiles (some ([] : List Nat)) (some ([] : List Nat))
        1 1 = Except.ok (getMNISTRawData [] [] 1 1) ∧
    (getMNISTRawData ([] : List Nat) ([] : List Nat) 1 1).1.getD 0 0 = 0 ∧
    ((getMNISTRawData ([] : List Nat) ([] : List Nat) 1 1).2.getD 0
        []).getD 0 0 = 0 := by
  obtain ⟨h1, h2, h3⟩ :=
    claim_reader_zero_fill [] [] 1 1 0 0 (by decide) (by decide)
  exact ⟨h1, h2 (by decide), h3 (by decide)⟩
